import Mathlib

/-!
# Funding-rate monitor: shallow embedding and verification

This file embeds the core of the funding-rate monitor (the
`FundingRateCollector` class of `collector.ts` together with its helper
functions `cleanSymbol` and `calculateRates`) into Lean and proves or
refutes the specified properties.

Modelling conventions:
* JavaScript numbers are modelled as exact rationals `ℚ`; epoch-millisecond
  timestamps as integers `ℤ`.
* A JavaScript value of type `number | null` is an `Option ℤ` / `Option ℚ`
  (`none` = `null`).
* JavaScript objects used as string-keyed dictionaries are association
  lists `List (String × α)` in insertion order: property assignment
  overwrites in place when the key exists and appends otherwise, which is
  exactly the enumeration-order semantics of `for … in` / `Object.entries`.
* `Math.round x` is `⌊x + 1/2⌋` (ties toward +∞) and
  `parseFloat(x.toFixed(1))` is `⌊10·x + 1/2⌋ / 10` (ties pick the larger
  candidate), both as specified by ECMAScript for the values arising here.
* The wall-clock field `timestamp: Date` of a stored record is omitted;
  no property under scrutiny mentions it.
-/

namespace FundingMonitor

/-- JavaScript coercion of a `number | null` to a number in arithmetic
(`ToNumber(null) = +0`).  `calculateRates` multiplies by `frequencyPerDay!`,
which at runtime is still `null` when no default matched. -/
def jsNumber : Option ℤ → ℚ
  | none => 0
  | some x => (x : ℚ)

/-- `Math.round`: round half toward +∞. -/
def jsRound (q : ℚ) : ℤ := ⌊q + 1 / 2⌋

/-- `parseFloat((x).toFixed(1))`: the numeric value of `x` rounded to one
decimal digit, ties to the larger candidate. -/
def toFixed1 (q : ℚ) : ℚ := (⌊q * 10 + 1 / 2⌋ : ℚ) / 10

/-- The suffix test `s.endsWith suffix`, computed on the underlying
character lists (all symbols involved are ASCII). -/
def strEndsWith (s suffix : String) : Bool :=
  suffix.data.isSuffixOf s.data

/-- `s.dropRight n` (remove the last `n` characters), computed on the
underlying character lists. -/
def strDropRight (s : String) (n : Nat) : String :=
  String.mk (s.data.take (s.data.length - n))

/-- First replacement of `cleanSymbol`: the regex `(_USDT|USDT)$`.  A match
must end at the end of the string, and the leftmost match is the `_USDT`
one when the string ends in `_USDT`; so this strips `_USDT` if present,
else `USDT` if present, else nothing. (collector.ts line 36) -/
def stripUSDT (s : String) : String :=
  if strEndsWith s "_USDT" then strDropRight s 5
  else if strEndsWith s "USDT" then strDropRight s 4
  else s

/-- Second replacement of `cleanSymbol`: the regex `-USDT-SWAP$`.
(collector.ts line 37) -/
def stripSwap (s : String) : String :=
  if strEndsWith s "-USDT-SWAP" then strDropRight s 10
  else s

/-- `cleanSymbol`: normalize an exchange symbol to its base asset by the two
chained regex replacements (collector.ts lines 34–38). -/
def cleanSymbol (s : String) : String :=
  stripSwap (stripUSDT s)

/-- The static per-exchange default settlement frequency (the `switch` of
`calculateRates`, collector.ts lines 416–426).  The `default:` branch only
logs a warning and assigns nothing, so for any exchange outside the five
built-in names the frequency remains `null`. -/
def defaultFrequency : String → Option ℤ
  | "binance" | "okx" | "bybit" | "bitget" | "gate" => some 3
  | _ => none

/-- Dynamic frequency inference from two consecutive `nextFundingTimestamp`
observations (collector.ts lines 400–412).  Returns the inferred
`(frequencyPerDay?, intervalHours?)`; both stay `none` unless both
timestamps are truthy, strictly increasing, and the interval lies within
[1h, 24h]. -/
def inferFrequency (currentNext previousNext : Option ℤ) : Option ℤ × Option ℚ :=
  match currentNext, previousNext with
  | some c, some p =>
    if c ≠ 0 ∧ p ≠ 0 ∧ p < c then
      let intervalMs : ℤ := c - p
      if 3600000 ≤ intervalMs ∧ intervalMs ≤ 86400000 then
        (some (max 1 (jsRound ((86400000 : ℚ) / (intervalMs : ℚ)))),
         some (toFixed1 ((intervalMs : ℚ) / 3600000)))
      else (none, none)
    else (none, none)
  | _, _ => (none, none)

/-- Result record of `calculateRates` (collector.ts line 390).  The TS
return type declares `frequencyPerDay: number`, but the runtime value can be
`null` (see `defaultFrequency`), which the implementation hides behind a
non-null assertion `frequencyPerDay!`; we therefore model the field as
`Option ℤ`. -/
structure RatesResult where
  apr : ℚ
  singleCycleNetRatePercent : ℚ
  dailyNetRatePercent : ℚ
  frequencyPerDay : Option ℤ
  intervalHours : Option ℚ

/-- `calculateRates` (collector.ts lines 384–453): derive the annualized
rate, the single-cycle and daily net rates, and the settlement frequency
from a raw funding rate, the single-leg fee, the exchange name and the two
consecutive next-settlement timestamps. -/
def calculateRates (fundingRate feePercent : ℚ) (exchange : String)
    (currentNext previousNext : Option ℤ) : RatesResult :=
  let inferred := inferFrequency currentNext previousNext
  -- lines 414–427: fall back to the static default when inference failed
  let frequencyPerDay : Option ℤ :=
    match inferred.1 with
    | some f => some f
    | none => defaultFrequency exchange
  -- `frequencyPerDay!` in arithmetic: `null` coerces to 0
  let freqNum : ℚ := jsNumber frequencyPerDay
  -- line 430
  let apr := fundingRate * freqNum * 365 * 100
  -- line 433
  let fundingRatePercent := fundingRate * 100
  -- line 437
  let dailyFundingRatePercent := fundingRate * freqNum * 100
  -- lines 441–450
  { apr := apr
    singleCycleNetRatePercent :=
      if 0 ≤ fundingRate then fundingRatePercent - feePercent
      else |fundingRatePercent| - feePercent
    dailyNetRatePercent :=
      if 0 ≤ fundingRate then dailyFundingRatePercent - feePercent
      else |dailyFundingRatePercent| - feePercent
    frequencyPerDay := frequencyPerDay
    intervalHours := inferred.2 }

/-- A stored funding-rate record (`interface FundingRate`, collector.ts
lines 16–25), as written by `updateRate`.  The `timestamp: Date` field
(wall-clock capture time) is omitted. -/
structure FundingRate where
  rate : ℚ
  apr : ℚ
  singleCycleNetRatePercent : ℚ
  dailyNetRatePercent : ℚ
  nextFundingTimestamp : Option ℤ
  frequencyPerDay : Option ℤ
  intervalHours : Option ℚ

/-- Read a property of a string-keyed JavaScript object: `m[k]`, `none` when
the property is absent (`undefined`). -/
def getKey : List (String × α) → String → Option α
  | [], _ => none
  | p :: t, k => if p.1 == k then some p.2 else getKey t k

/-- Property assignment on a string-keyed JavaScript object: `m[k] = v`
overwrites in place when `k` is present and appends otherwise (insertion
order is preserved, new keys enumerate last). -/
def setKey (m : List (String × α)) (k : String) (v : α) : List (String × α) :=
  if m.any (fun p => p.1 == k) then
    m.map (fun p => if p.1 == k then (k, v) else p)
  else m ++ [(k, v)]

/-- The per-cycle snapshot `fundingRates`: exchange → symbol → record. -/
abbrev Snapshot := List (String × List (String × FundingRate))

/-- The mutable fields of a `FundingRateCollector` instance
(collector.ts lines 45–57). -/
structure CollectorState where
  fundingRates : Snapshot
  previousTimestamps : List (String × List (String × Option ℤ))
  timestampsChanged : Bool

/-- The per-exchange empty snapshot built by the constructor and by
`clear()` from `Object.keys(EXCHANGES)` (collector.ts lines 66–69 and
325–328). `exchanges` is the configured exchange key list. -/
def emptySnapshot (exchanges : List String) : Snapshot :=
  exchanges.map (fun name => (name, []))

/-- `clear()` (collector.ts lines 323–329): reinitialize `fundingRates`;
nothing else is touched. -/
def clear (exchanges : List String) (s : CollectorState) : CollectorState :=
  { s with fundingRates := emptySnapshot exchanges }

/-- `updateRate` (collector.ts lines 90–135).  The snapshot write
`this.fundingRates[exchange][symbol] = …` (line 107) throws a `TypeError`
when `exchange` is not a key of `fundingRates`; mutations performed before
the throw (the auto-created `previousTimestamps[exchange]`, lines 93–95)
persist on the object, so the error case carries the state at the moment of
the throw. -/
def updateRate (feePercent : ℚ) (s : CollectorState) (exchange symbol : String)
    (rate : ℚ) (nextFundingTimestamp : Option ℤ) :
    Except CollectorState CollectorState :=
  -- lines 93–95: ensure previousTimestamps[exchange] exists
  let pt :=
    if (getKey s.previousTimestamps exchange).isSome then s.previousTimestamps
    else s.previousTimestamps ++ [(exchange, [])]
  -- line 96: `this.previousTimestamps[exchange]?.[symbol] ?? null`
  let previousNext : Option ℤ :=
    (((getKey pt exchange).bind (fun m => getKey m symbol)).getD none)
  -- lines 99–105
  let r := calculateRates rate feePercent exchange nextFundingTimestamp previousNext
  -- lines 107–116: the snapshot write; TypeError when the exchange key is absent
  match getKey s.fundingRates exchange with
  | none => Except.error { s with previousTimestamps := pt }
  | some symbolMap =>
    let record : FundingRate :=
      { rate := rate
        apr := r.apr
        singleCycleNetRatePercent := r.singleCycleNetRatePercent
        dailyNetRatePercent := r.dailyNetRatePercent
        nextFundingTimestamp := nextFundingTimestamp
        frequencyPerDay := r.frequencyPerDay
        intervalHours := r.intervalHours }
    let fundingRates := setKey s.fundingRates exchange (setKey symbolMap symbol record)
    -- line 118: `previousValue` is `undefined` (outer `none`) when the symbol
    -- was never seen, `null` (`some none`) when null was stored
    let previousValue : Option (Option ℤ) := (getKey pt exchange).bind (fun m => getKey m symbol)
    -- lines 119–130: `previousValue !== nextFundingTimestamp`
    if previousValue ≠ some nextFundingTimestamp then
      Except.ok
        { fundingRates := fundingRates
          previousTimestamps :=
            setKey pt exchange (setKey ((getKey pt exchange).getD []) symbol nextFundingTimestamp)
          timestampsChanged := true }
    else
      Except.ok
        { fundingRates := fundingRates
          previousTimestamps := pt
          timestampsChanged := s.timestampsChanged }

/-- The detector configuration read from `CONFIG` by the constructor
(collector.ts lines 74–78). -/
structure ArbitrageConfig where
  minPositiveApr : ℚ
  minNegativeApr : ℚ
  filterNegativeDailyNetRate : Bool

/-- One single-leg opportunity entry, the tuple pushed by
`getArbitragePairs` (collector.ts lines 146–148 and 160–162):
`[exchange, symbol, apr, singleCycleNetRatePercent, dailyNetRatePercent,
intervalHours, frequencyPerDay]`. -/
structure SingleLegOpportunity where
  exchange : String
  symbol : String
  apr : ℚ
  singleCycleNetRatePercent : ℚ
  dailyNetRatePercent : ℚ
  intervalHours : Option ℚ
  frequencyPerDay : Option ℤ

/-- Build the tuple pushed into `positivePairs` / `negativePairs`. -/
def toSingleLeg (exchange symbol : String) (r : FundingRate) : SingleLegOpportunity :=
  { exchange := exchange
    symbol := symbol
    apr := r.apr
    singleCycleNetRatePercent := r.singleCycleNetRatePercent
    dailyNetRatePercent := r.dailyNetRatePercent
    intervalHours := r.intervalHours
    frequencyPerDay := r.frequencyPerDay }

/-- All `(exchange, symbol, record)` triples of a snapshot, in the nested
enumeration order of `for … in` / `Object.entries`
(collector.ts lines 151–152). -/
def snapshotObservations (snap : Snapshot) : List (String × String × FundingRate) :=
  snap.flatMap (fun ex => ex.2.map (fun sr => (ex.1, sr.1, sr.2)))

/-- The skip condition of `getArbitragePairs` (collector.ts lines 154–156):
an observation is kept unless filtering is on and its daily net rate is
negative. -/
def keptObservation (cfg : ArbitrageConfig) (r : FundingRate) : Bool :=
  !(cfg.filterNegativeDailyNetRate && decide (r.dailyNetRatePercent < 0))

/-- `getArbitragePairs` (collector.ts lines 144–169), up to the message
formatting: the single pass with `if / else if` appends a kept observation
to `positivePairs` exactly when `apr ≥ minPositiveApr`, and to
`negativePairs` exactly when the first test failed and `apr ≤
minNegativeApr`; so the two arrays are the order-preserving filters below.
`positivePairs.sort((a, b) => b[2] - a[2])` is a stable descending sort by
`apr`, `negativePairs.sort((a, b) => a[2] - b[2])` a stable ascending one. -/
def getArbitragePairs (cfg : ArbitrageConfig) (snap : Snapshot) :
    List SingleLegOpportunity × List SingleLegOpportunity :=
  let obs := snapshotObservations snap
  let kept := obs.filter (fun o => keptObservation cfg o.2.2)
  let positivePairs :=
    (kept.filter (fun o => decide (cfg.minPositiveApr ≤ o.2.2.apr))).map
      (fun o => toSingleLeg o.1 o.2.1 o.2.2)
  let negativePairs :=
    (kept.filter (fun o =>
        !decide (cfg.minPositiveApr ≤ o.2.2.apr) && decide (o.2.2.apr ≤ cfg.minNegativeApr))).map
      (fun o => toSingleLeg o.1 o.2.1 o.2.2)
  (positivePairs.mergeSort (fun a b => decide (b.apr ≤ a.apr)),
   negativePairs.mergeSort (fun a b => decide (a.apr ≤ b.apr)))

/-- The aggregation entry of `getCrossExchangeArbitrageOpportunities`
(collector.ts lines 240–244). -/
structure RateEntry where
  exchange : String
  symbol : String
  rate : ℚ

/-- A cross-exchange opportunity (collector.ts lines 220–225). -/
structure CrossExchangeOpportunity where
  longExchange : String
  shortExchange : String
  cleanedSymbol : String
  netProfitPercent : ℚ

/-- All `(exchange, symbol, rate)` entries of a snapshot, in enumeration
order (collector.ts lines 233–246). -/
def snapshotRateEntries (snap : Snapshot) : List RateEntry :=
  snap.flatMap (fun ex => ex.2.map (fun sr =>
    { exchange := ex.1, symbol := sr.1, rate := sr.2.rate }))

/-- One step of building `ratesByCleanedSymbol`: append the entry to the
group keyed by its cleaned symbol, creating the group if needed
(collector.ts lines 235–244, insertion-order object semantics). -/
def addEntryToGroups (gs : List (String × List RateEntry)) (e : RateEntry) :
    List (String × List RateEntry) :=
  let key := cleanSymbol e.symbol
  if gs.any (fun g => g.1 == key) then
    gs.map (fun g => if g.1 == key then (g.1, g.2 ++ [e]) else g)
  else gs ++ [(key, [e])]

/-- `ratesByCleanedSymbol`, as a list of groups in first-occurrence order. -/
def groupsByCleanedSymbol (entries : List RateEntry) : List (String × List RateEntry) :=
  entries.foldl addEntryToGroups []

/-- The body of the inner double loop (collector.ts lines 264–290): compare
two entries of one group and emit an opportunity when the rate spread beats
the round-trip fee; the higher-rate exchange is shorted. -/
def comparePair (combinedFeePercent : ℚ) (cleanedSym : String) (e1 e2 : RateEntry) :
    Option CrossExchangeOpportunity :=
  let rateDiffPercent := (e1.rate - e2.rate) * 100
  if |rateDiffPercent| > combinedFeePercent then
    let netProfitPercent := |rateDiffPercent| - combinedFeePercent
    if 0 < rateDiffPercent then
      some { longExchange := e2.exchange, shortExchange := e1.exchange,
             cleanedSymbol := cleanedSym, netProfitPercent := netProfitPercent }
    else
      some { longExchange := e1.exchange, shortExchange := e2.exchange,
             cleanedSymbol := cleanedSym, netProfitPercent := netProfitPercent }
  else none

/-- The double loop `for i … for j = i+1 …` over one group's entry list
(collector.ts lines 259–292), collecting emitted opportunities in order. -/
def pairOpportunities (combinedFeePercent : ℚ) (cleanedSym : String) :
    List RateEntry → List CrossExchangeOpportunity
  | [] => []
  | e :: rest =>
    rest.filterMap (comparePair combinedFeePercent cleanedSym e)
      ++ pairOpportunities combinedFeePercent cleanedSym rest

/-- One group's contribution, with the `ratesList.length < 2 → continue`
guard (collector.ts line 256). -/
def groupOpportunities (combinedFeePercent : ℚ) (g : String × List RateEntry) :
    List CrossExchangeOpportunity :=
  if g.2.length < 2 then [] else pairOpportunities combinedFeePercent g.1 g.2

/-- `getCrossExchangeArbitrageOpportunities` (collector.ts lines 218–316),
up to the message formatting: the sorted opportunity list which the source
renders into the Telegram string (an empty list renders to the empty
string). `opportunities.sort((a, b) => b.netProfitPercent -
a.netProfitPercent)` is a stable descending sort. -/
def getCrossExchangeArbitrageOpportunities (snap : Snapshot) (feePercent : ℚ) :
    List CrossExchangeOpportunity :=
  let combinedFeePercent := 2 * feePercent
  let opportunities :=
    (groupsByCleanedSymbol (snapshotRateEntries snap)).flatMap
      (groupOpportunities combinedFeePercent)
  opportunities.mergeSort (fun a b => decide (b.netProfitPercent ≤ a.netProfitPercent))

/-! ## Theorems -/

/-- C1: for every `rawRate < 0` (and any fee, exchange and timestamps), the
rate calculator returns `singleCycleNetRatePercent = |rawRate·100| − fee`,
and `dailyNetRatePercent = |rawRate · frequencyPerDay · 100| − fee` for the
frequency it determined (with `null` coercing to 0 in the arithmetic); in
particular, whenever `frequencyPerDay = some f` the daily net rate is
`|rawRate · f · 100| − fee`.  The fee is subtracted exactly once from the
absolute value of the receivable, never added. -/
theorem claim_C1_negative_rate_fee_subtracted
    (rate fee : ℚ) (ex : String) (cur prev : Option ℤ) (h : rate < 0) :
    (calculateRates rate fee ex cur prev).singleCycleNetRatePercent
        = |rate * 100| - fee
    ∧ (calculateRates rate fee ex cur prev).dailyNetRatePercent
        = |rate * jsNumber (calculateRates rate fee ex cur prev).frequencyPerDay * 100| - fee
    ∧ ∀ f : ℤ, (calculateRates rate fee ex cur prev).frequencyPerDay = some f →
        (calculateRates rate fee ex cur prev).dailyNetRatePercent
          = |rate * (f : ℚ) * 100| - fee := by
  have hn : ¬ (0 ≤ rate) := not_le.mpr h
  refine ⟨?_, ?_, ?_⟩
  · simp only [calculateRates, if_neg hn]
  · simp only [calculateRates, if_neg hn]
  · simp only [calculateRates, if_neg hn]
    intro f hf
    simp only [hf, jsNumber]

/-- Witness for C1 at `rawRate = -0.001`, `fee = 0.06`, exchange `binance`
with no timestamps: the default frequency 3 applies, the single-cycle net
rate is `|-0.1| - 0.06` and the daily net rate is `|-0.3| - 0.06`. -/
theorem claim_C1_witness :
    ((-1/1000 : ℚ) < 0)
    ∧ (calculateRates (-1/1000) (6/100) "binance" none none).singleCycleNetRatePercent
        = |(-1/1000 : ℚ) * 100| - 6/100
    ∧ (calculateRates (-1/1000) (6/100) "binance" none none).frequencyPerDay = some 3
    ∧ (calculateRates (-1/1000) (6/100) "binance" none none).dailyNetRatePercent
        = |(-1/1000 : ℚ) * ((3 : ℤ) : ℚ) * 100| - 6/100 :=
  ⟨by norm_num,
   (claim_C1_negative_rate_fee_subtracted (-1/1000) (6/100) "binance" none none
      (by norm_num)).1,
   by decide,
   (claim_C1_negative_rate_fee_subtracted (-1/1000) (6/100) "binance" none none
      (by norm_num)).2.2 3 (by decide)⟩

/-- C9: for every stored observation the annualized figure satisfies
`apr = dailyRatePercent · 365` with `dailyRatePercent = rawRate ·
frequencyPerDay · 100`, equivalently `apr = rawRate · frequencyPerDay ·
365 · 100`, using the same frequency in both (`null` coercing to 0). -/
theorem claim_C9_apr_daily_roundtrip
    (rate fee : ℚ) (ex : String) (cur prev : Option ℤ) :
    (calculateRates rate fee ex cur prev).apr
        = (rate * jsNumber (calculateRates rate fee ex cur prev).frequencyPerDay * 100) * 365
    ∧ (calculateRates rate fee ex cur prev).apr
        = rate * jsNumber (calculateRates rate fee ex cur prev).frequencyPerDay * 365 * 100 := by
  constructor
  · simp only [calculateRates]; ring
  · simp only [calculateRates]

/-- C8: `clear()` rebuilds the snapshot as the configured exchange list
mapped to empty symbol maps — so the top-level key set equals the
configured exchange set and every symbol map reads back empty — and leaves
the persistent `previousTimestamps` ledger (and the pending-persist flag)
completely unchanged. -/
theorem claim_C8_clear_resets_only_snapshot
    (exchanges : List String) (s : CollectorState) :
    (clear exchanges s).fundingRates = exchanges.map (fun name => (name, []))
    ∧ (clear exchanges s).fundingRates.map Prod.fst = exchanges
    ∧ (clear exchanges s).previousTimestamps = s.previousTimestamps
    ∧ (clear exchanges s).timestampsChanged = s.timestampsChanged := by
  refine ⟨rfl, ?_, rfl, rfl⟩
  simp only [clear, emptySnapshot, List.map_map]
  exact List.map_id exchanges

/-- Helper for C2: on the accepted path (both timestamps nonzero, strictly
increasing, interval within [1h, 24h]) the tracker infers the frequency and
the one-decimal interval. -/
lemma inferFrequency_accept {c p : ℤ} (hc : c ≠ 0) (hp : p ≠ 0) (hlt : p < c)
    (h : 3600000 ≤ c - p ∧ c - p ≤ 86400000) :
    inferFrequency (some c) (some p)
      = (some (max 1 (jsRound ((86400000 : ℚ) / (((c - p : ℤ)) : ℚ)))),
         some (toFixed1 ((((c - p : ℤ)) : ℚ) / 3600000))) := by
  simp only [inferFrequency]
  rw [if_pos ⟨hc, hp, hlt⟩, if_pos h]

/-- Helper for C2: an interval outside [1h, 24h] is discarded. -/
lemma inferFrequency_reject {c p : ℤ} (h : ¬ (3600000 ≤ c - p ∧ c - p ≤ 86400000)) :
    inferFrequency (some c) (some p) = (none, none) := by
  simp only [inferFrequency]
  by_cases hg : c ≠ 0 ∧ p ≠ 0 ∧ p < c
  · rw [if_pos hg, if_neg h]
  · rw [if_neg hg]

/-- C2 (amended): for every pair of settlement timestamps that are both
present, both nonzero (the implementation's truthiness guard also rejects
the value 0) and strictly increasing: if the delta lies within [1h, 24h]
the tracker yields `frequencyPerDay = max 1 (round (86400000 / delta))` and
`intervalHours = delta / 3600000` rounded to one decimal; otherwise the
interval is rejected, the static per-exchange default frequency is used
(3/day for the five built-in exchanges, absent for others) and
`intervalHours` is absent. -/
theorem claim_C2_frequency_inference
    (rate fee : ℚ) (ex : String) (c p : ℤ)
    (hc : c ≠ 0) (hp : p ≠ 0) (hlt : p < c) :
    (3600000 ≤ c - p ∧ c - p ≤ 86400000 →
        (calculateRates rate fee ex (some c) (some p)).frequencyPerDay
            = some (max 1 (jsRound ((86400000 : ℚ) / (((c - p : ℤ)) : ℚ))))
        ∧ (calculateRates rate fee ex (some c) (some p)).intervalHours
            = some (toFixed1 ((((c - p : ℤ)) : ℚ) / 3600000)))
    ∧ (¬ (3600000 ≤ c - p ∧ c - p ≤ 86400000) →
        (calculateRates rate fee ex (some c) (some p)).frequencyPerDay = defaultFrequency ex
        ∧ (calculateRates rate fee ex (some c) (some p)).intervalHours = none) := by
  constructor
  · intro h
    simp [calculateRates, inferFrequency_accept hc hp hlt h]
  · intro h
    simp [calculateRates, inferFrequency_reject h]

/-- Counterexample to C2 as frozen: with `previous = 0` (epoch, a present
timestamp value) and `current = 28800000` (an 8-hour delta inside the
accepted range), the claim demands `intervalHours = 8.0`, but the
implementation's truthiness guard treats the timestamp `0` as missing and
falls back to the default with `intervalHours` absent. -/
theorem claim_C2_counterexample :
    (calculateRates (1/10000) (6/100) "binance" (some 28800000) (some 0)).intervalHours = none
    ∧ (0 : ℤ) < 28800000
    ∧ (3600000 : ℤ) ≤ 28800000 - 0 ∧ (28800000 : ℤ) - 0 ≤ 86400000 := by
  exact ⟨by decide, by decide, by decide, by decide⟩

/-- Witness for C2 at the spec's examples: an 8-hour delta (timestamps
3600000 and 32400000) yields `frequencyPerDay = 3`, `intervalHours = 8.0`;
a 30-minute delta (timestamps 3600000 and 5400000) is rejected and the
`binance` default applies with `intervalHours` absent. -/
theorem claim_C2_witness :
    ((32400000 : ℤ) ≠ 0) ∧ ((3600000 : ℤ) ≠ 0) ∧ ((3600000 : ℤ) < 32400000)
    ∧ ((3600000 : ℤ) ≤ 32400000 - 3600000 ∧ (32400000 : ℤ) - 3600000 ≤ 86400000)
    ∧ (calculateRates (1/10000) (3/50) "binance" (some 32400000) (some 3600000)).frequencyPerDay
        = some 3
    ∧ (calculateRates (1/10000) (3/50) "binance" (some 32400000) (some 3600000)).intervalHours
        = some 8
    ∧ ((5400000 : ℤ) ≠ 0) ∧ (¬ ((3600000 : ℤ) ≤ 5400000 - 3600000 ∧ (5400000 : ℤ) - 3600000 ≤ 86400000))
    ∧ (calculateRates (1/10000) (3/50) "binance" (some 5400000) (some 3600000)).frequencyPerDay
        = defaultFrequency "binance"
    ∧ (calculateRates (1/10000) (3/50) "binance" (some 5400000) (some 3600000)).intervalHours
        = none := by
  have h1 := (claim_C2_frequency_inference (1/10000) (3/50) "binance" 32400000 3600000
      (by decide) (by decide) (by decide)).1 ⟨by decide, by decide⟩
  have h2 := (claim_C2_frequency_inference (1/10000) (3/50) "binance" 5400000 3600000
      (by decide) (by decide) (by decide)).2 (by decide)
  refine ⟨by decide, by decide, by decide, ⟨by decide, by decide⟩, ?_, ?_, by decide, by decide,
      h2.1, h2.2⟩
  · rw [h1.1]; norm_num [jsRound]
  · rw [h1.2]; norm_num [toFixed1]

/-- C6 (amended): `cleanSymbol` is idempotent on every symbol whose
normalized form does not itself end in one of the strippable suffixes
`_USDT`, `USDT`, `-USDT-SWAP`; in particular every such already-normalized
base symbol is returned unchanged.  (Unrestricted idempotence fails, see
the counterexample.) -/
theorem claim_C6_cleanSymbol_conditionally_idempotent (s : String)
    (h1 : strEndsWith (cleanSymbol s) "_USDT" = false)
    (h2 : strEndsWith (cleanSymbol s) "USDT" = false)
    (h3 : strEndsWith (cleanSymbol s) "-USDT-SWAP" = false) :
    cleanSymbol (cleanSymbol s) = cleanSymbol s := by
  revert h1 h2 h3
  generalize cleanSymbol s = t
  intro h1 h2 h3
  simp [cleanSymbol, stripUSDT, stripSwap, h1, h2, h3]

/-- Counterexample to C6 as frozen: `cleanSymbol` is not idempotent on
every symbol — `"BTCUSDTUSDT"` normalizes to `"BTCUSDT"`, which normalizes
again to `"BTC"`. -/
theorem claim_C6_counterexample :
    cleanSymbol (cleanSymbol "BTCUSDTUSDT") ≠ cleanSymbol "BTCUSDTUSDT"
    ∧ cleanSymbol "BTCUSDTUSDT" = "BTCUSDT"
    ∧ cleanSymbol (cleanSymbol "BTCUSDTUSDT") = "BTC" := by
  exact ⟨by decide, by decide, by decide⟩

/-- Witness for C6 at `"ETH-USDT-SWAP"`: its normalized form `"ETH"` ends
in none of the strippable suffixes, so a second normalization returns it
unchanged. -/
theorem claim_C6_witness :
    strEndsWith (cleanSymbol "ETH-USDT-SWAP") "_USDT" = false
    ∧ strEndsWith (cleanSymbol "ETH-USDT-SWAP") "USDT" = false
    ∧ strEndsWith (cleanSymbol "ETH-USDT-SWAP") "-USDT-SWAP" = false
    ∧ cleanSymbol (cleanSymbol "ETH-USDT-SWAP") = cleanSymbol "ETH-USDT-SWAP" :=
  ⟨by decide, by decide, by decide,
   claim_C6_cleanSymbol_conditionally_idempotent "ETH-USDT-SWAP"
     (by decide) (by decide) (by decide)⟩

/-- C3: for every pair of entries within a normalized-symbol group (and a
nonnegative single-leg fee), an opportunity is emitted if and only if
`|(rateA − rateB)·100| > 2·fee` — equality does not qualify — and the
emitted opportunity has `netProfitPercent = |(rateA − rateB)·100| − 2·fee`,
with the lower-rate exchange as the long leg and the higher-rate exchange
as the short leg. -/
theorem claim_C3_cross_pair_emission (feePercent : ℚ) (hfee : 0 ≤ feePercent)
    (cleanedSym : String) (e1 e2 : RateEntry) :
    ((comparePair (2 * feePercent) cleanedSym e1 e2).isSome
        ↔ 2 * feePercent < |(e1.rate - e2.rate) * 100|)
    ∧ ∀ opp : CrossExchangeOpportunity,
        comparePair (2 * feePercent) cleanedSym e1 e2 = some opp →
        opp.netProfitPercent = |(e1.rate - e2.rate) * 100| - 2 * feePercent
        ∧ ((opp.longExchange = e1.exchange ∧ opp.shortExchange = e2.exchange ∧ e1.rate < e2.rate)
           ∨ (opp.longExchange = e2.exchange ∧ opp.shortExchange = e1.exchange ∧ e2.rate < e1.rate)) := by
  simp only [comparePair]
  by_cases hgt : |(e1.rate - e2.rate) * 100| > 2 * feePercent
  · rw [if_pos hgt]
    refine ⟨?_, ?_⟩
    · constructor
      · intro _; exact hgt
      · intro _; split <;> rfl
    · intro opp h
      by_cases hd : 0 < (e1.rate - e2.rate) * 100
      · rw [if_pos hd] at h
        obtain rfl := Option.some.inj h
        refine ⟨rfl, Or.inr ⟨rfl, rfl, by nlinarith⟩⟩
      · rw [if_neg hd] at h
        obtain rfl := Option.some.inj h
        have hne : (e1.rate - e2.rate) * 100 ≠ 0 := by
          intro h0
          rw [h0] at hgt
          simp at hgt
          nlinarith
        have hdlt : (e1.rate - e2.rate) * 100 < 0 := lt_of_le_of_ne (not_lt.mp hd) hne
        refine ⟨rfl, Or.inl ⟨rfl, rfl, by nlinarith⟩⟩
  · rw [if_neg hgt]
    constructor
    · simp only [Option.isSome_none, Bool.false_eq_true, false_iff]
      exact fun hcon => hgt hcon
    · intro opp h
      exact absurd h (by simp)

/-- Witness for C3 at the spec's example: rates `0.001` (exchange A) and
`−0.0005` (exchange B) at `feePercent = 0.06` emit an opportunity with
`netProfitPercent = 0.03`, long on B (the lower rate), short on A. -/
theorem claim_C3_witness :
    (0 ≤ (6/100 : ℚ))
    ∧ comparePair (2 * (6/100)) "BTC"
        ⟨"A", "BTCUSDT", 1/1000⟩ ⟨"B", "BTCUSDT", -1/2000⟩
        = some ⟨"B", "A", "BTC", 3/100⟩
    ∧ ((3/100 : ℚ) = |((1/1000 : ℚ) - (-1/2000)) * 100| - 2 * (6/100)
        ∧ ((("B" : String) = "A" ∧ ("A" : String) = "B" ∧ (1/1000 : ℚ) < -1/2000)
           ∨ (("B" : String) = "B" ∧ ("A" : String) = "A" ∧ (-1/2000 : ℚ) < 1/1000))) :=
  ⟨by norm_num,
   by norm_num [comparePair, abs_of_pos],
   (claim_C3_cross_pair_emission (6/100) (by norm_num) "BTC"
       ⟨"A", "BTCUSDT", 1/1000⟩ ⟨"B", "BTCUSDT", -1/2000⟩).2
     ⟨"B", "A", "BTC", 3/100⟩ (by norm_num [comparePair, abs_of_pos])⟩

/-- A sample stored record for concrete snapshots: only `rate` and `apr`
matter to the detectors. -/
def sampleRecord (rate apr : ℚ) : FundingRate :=
  { rate := rate, apr := apr, singleCycleNetRatePercent := 0, dailyNetRatePercent := 0,
    nextFundingTimestamp := none, frequencyPerDay := some 3, intervalHours := none }

/-- Helper for C5: an emitted pair opportunity takes its long and short legs
from the two compared entries (in one of the two orders). -/
lemma comparePair_exchanges {fee : ℚ} {sym : String} {a b : RateEntry}
    {opp : CrossExchangeOpportunity} (h : comparePair fee sym a b = some opp) :
    (opp.longExchange = b.exchange ∧ opp.shortExchange = a.exchange)
    ∨ (opp.longExchange = a.exchange ∧ opp.shortExchange = b.exchange) := by
  simp only [comparePair] at h
  split at h
  · split at h
    · obtain rfl := Option.some.inj h; left; exact ⟨rfl, rfl⟩
    · obtain rfl := Option.some.inj h; right; exact ⟨rfl, rfl⟩
  · exact absurd h (by simp)

/-- Helper for C5: when the entries of a group belong to pairwise-distinct
exchanges, every opportunity of the pairwise loop has distinct legs. -/
lemma mem_pairOpportunities_ne {fee : ℚ} {sym : String} {l : List RateEntry}
    (hpw : l.Pairwise (fun a b => a.exchange ≠ b.exchange)) :
    ∀ opp ∈ pairOpportunities fee sym l, opp.longExchange ≠ opp.shortExchange := by
  induction l with
  | nil => intro opp h; simp [pairOpportunities] at h
  | cons e rest ih =>
    intro opp hmem
    simp only [pairOpportunities, List.mem_append, List.mem_filterMap] at hmem
    rcases hmem with ⟨b, hb, hcp⟩ | hmem
    · have hne : e.exchange ≠ b.exchange := (List.pairwise_cons.mp hpw).1 b hb
      rcases comparePair_exchanges hcp with ⟨h1, h2⟩ | ⟨h1, h2⟩
      · rw [h1, h2]; exact fun hh => hne hh.symm
      · rw [h1, h2]; exact hne
    · exact ih (List.pairwise_cons.mp hpw).2 opp hmem

/-- C5 (amended): cross-exchange detection skips every normalized-symbol
group with fewer than 2 entries, and whenever every normalized group draws
its entries from pairwise-distinct exchanges, every emitted opportunity
has `longExchange ≠ shortExchange`.  (The unconditional distinctness of the
frozen claim fails: the guard counts entries, not distinct exchanges — see
the counterexample.) -/
theorem claim_C5_distinct_exchange_legs (snap : Snapshot) (feePercent : ℚ)
    (g : String × List RateEntry) :
    (g.2.length < 2 → groupOpportunities (2 * feePercent) g = [])
    ∧ ((∀ g' ∈ groupsByCleanedSymbol (snapshotRateEntries snap),
          g'.2.Pairwise (fun a b => a.exchange ≠ b.exchange)) →
        ∀ opp ∈ getCrossExchangeArbitrageOpportunities snap feePercent,
          opp.longExchange ≠ opp.shortExchange) := by
  constructor
  · intro h
    simp [groupOpportunities, if_pos h]
  · intro hpw opp hmem
    simp only [getCrossExchangeArbitrageOpportunities] at hmem
    rw [(List.mergeSort_perm _ _).mem_iff] at hmem
    rw [List.mem_flatMap] at hmem
    obtain ⟨g', hg', hopp⟩ := hmem
    rw [groupOpportunities] at hopp
    split at hopp
    · simp at hopp
    · exact mem_pairOpportunities_ne (hpw g' hg') opp hopp

/-- Counterexample to C5 as frozen: two raw symbols of the same exchange
(`BTC_USDT` and `BTCUSDT` on `binance`) normalize to the same base symbol,
the group then has 2 entries but only 1 distinct exchange, and the detector
emits an opportunity whose long and short legs are both `binance`. -/
theorem claim_C5_counterexample :
    getCrossExchangeArbitrageOpportunities
        [("binance", [("BTC_USDT", sampleRecord (1/1000) 0), ("BTCUSDT", sampleRecord (-1/2000) 0)])]
        (6/100)
      = [{ longExchange := "binance", shortExchange := "binance",
           cleanedSymbol := "BTC", netProfitPercent := 3/100 }] := by
  have h1 : cleanSymbol "BTC_USDT" = "BTC" := by decide
  have h2 : cleanSymbol "BTCUSDT" = "BTC" := by decide
  norm_num [getCrossExchangeArbitrageOpportunities, snapshotRateEntries, groupsByCleanedSymbol,
    addEntryToGroups, h1, h2, groupOpportunities, pairOpportunities, comparePair, sampleRecord,
    List.filterMap_cons, List.filterMap_nil, List.mergeSort, List.merge, abs_of_pos]

/-- Witness for C5: a singleton group contributes nothing, and on a
snapshot where `binance` and `okx` each hold one symbol normalizing to
`BTC`, the emitted opportunity (long `okx`, short `binance`) has distinct
legs. -/
theorem claim_C5_witness :
    groupOpportunities (2 * (6/100)) ("BTC", [⟨"binance", "BTCUSDT", 1/1000⟩]) = []
    ∧ getCrossExchangeArbitrageOpportunities
        [("binance", [("BTCUSDT", sampleRecord (1/1000) 0)]),
         ("okx", [("BTC-USDT-SWAP", sampleRecord (-1/2000) 0)])] (6/100)
        = [⟨"okx", "binance", "BTC", 3/100⟩]
    ∧ ("okx" : String) ≠ "binance" := by
  have h2 : cleanSymbol "BTCUSDT" = "BTC" := by decide
  have h3 : cleanSymbol "BTC-USDT-SWAP" = "BTC" := by decide
  have heq : getCrossExchangeArbitrageOpportunities
      [("binance", [("BTCUSDT", sampleRecord (1/1000) 0)]),
       ("okx", [("BTC-USDT-SWAP", sampleRecord (-1/2000) 0)])] (6/100)
      = [⟨"okx", "binance", "BTC", 3/100⟩] := by
    norm_num [getCrossExchangeArbitrageOpportunities, snapshotRateEntries, groupsByCleanedSymbol,
      addEntryToGroups, h2, h3, groupOpportunities, pairOpportunities, comparePair, sampleRecord,
      List.filterMap_cons, List.filterMap_nil, List.mergeSort, List.merge, abs_of_pos]
  refine ⟨(claim_C5_distinct_exchange_legs [] (6/100)
      ("BTC", [⟨"binance", "BTCUSDT", 1/1000⟩])).1 (by decide), heq, ?_⟩
  exact (claim_C5_distinct_exchange_legs
      [("binance", [("BTCUSDT", sampleRecord (1/1000) 0)]),
       ("okx", [("BTC-USDT-SWAP", sampleRecord (-1/2000) 0)])] (6/100) ("", [])).2
    (by decide) ⟨"okx", "binance", "BTC", 3/100⟩ (by rw [heq]; simp)

/-- C7 (amended): in the single-leg report, an observation not removed by
the negative-daily-net filter is classified positive when `apr ≥
minPositiveApr`, and negative when `apr ≤ minNegativeApr` *and* the
positive test failed (the `else if` gives the positive classification
precedence when the thresholds overlap); the positive list is sorted
descending by `apr` and the negative list ascending by `apr`. -/
theorem claim_C7_single_leg_classification (cfg : ArbitrageConfig) (snap : Snapshot) :
    ((getArbitragePairs cfg snap).1.Pairwise (fun a b => b.apr ≤ a.apr))
    ∧ ((getArbitragePairs cfg snap).2.Pairwise (fun a b => a.apr ≤ b.apr))
    ∧ (∀ ex sym r, (ex, sym, r) ∈ snapshotObservations snap →
        keptObservation cfg r = true →
        (cfg.minPositiveApr ≤ r.apr →
            toSingleLeg ex sym r ∈ (getArbitragePairs cfg snap).1)
        ∧ (¬ cfg.minPositiveApr ≤ r.apr → r.apr ≤ cfg.minNegativeApr →
            toSingleLeg ex sym r ∈ (getArbitragePairs cfg snap).2)) := by
  refine ⟨?_, ?_, ?_⟩
  · simp only [getArbitragePairs]
    exact (List.sorted_mergeSort
      (fun a b c hab hbc => by
        simp only [decide_eq_true_eq] at *; exact le_trans hbc hab)
      (fun a b => by
        simp only [Bool.or_eq_true, decide_eq_true_eq]; exact le_total b.apr a.apr)
      _).imp (fun h => of_decide_eq_true h)
  · simp only [getArbitragePairs]
    exact (List.sorted_mergeSort
      (fun a b c hab hbc => by
        simp only [decide_eq_true_eq] at *; exact le_trans hab hbc)
      (fun a b => by
        simp only [Bool.or_eq_true, decide_eq_true_eq]; exact le_total a.apr b.apr)
      _).imp (fun h => of_decide_eq_true h)
  · intro ex sym r hmem hkeep
    constructor
    · intro hpos
      simp only [getArbitragePairs]
      rw [(List.mergeSort_perm _ _).mem_iff]
      exact List.mem_map.mpr ⟨(ex, sym, r),
        List.mem_filter.mpr ⟨List.mem_filter.mpr ⟨hmem, hkeep⟩, by simpa using hpos⟩, rfl⟩
    · intro hnpos hneg
      simp only [getArbitragePairs]
      rw [(List.mergeSort_perm _ _).mem_iff]
      exact List.mem_map.mpr ⟨(ex, sym, r),
        List.mem_filter.mpr ⟨List.mem_filter.mpr ⟨hmem, hkeep⟩, by
          simp only [Bool.and_eq_true, Bool.not_eq_true', decide_eq_true_eq,
            decide_eq_false_iff_not]
          exact ⟨hnpos, hneg⟩⟩, rfl⟩

/-- Counterexample to C7 as frozen: with overlapping thresholds
`minPositiveApr = −10`, `minNegativeApr = 5`, an observation with `apr = 0`
satisfies `apr ≤ minNegativeApr`, yet the negative list is empty — the
`else if` put it in the positive list instead. -/
theorem claim_C7_counterexample :
    (getArbitragePairs ⟨-10, 5, false⟩ [("binance", [("BTCUSDT", sampleRecord 0 0)])]).2 = []
    ∧ keptObservation ⟨-10, 5, false⟩ (sampleRecord 0 0) = true
    ∧ (sampleRecord 0 0).apr ≤ (5 : ℚ)
    ∧ ("binance", "BTCUSDT", sampleRecord 0 0)
        ∈ snapshotObservations [("binance", [("BTCUSDT", sampleRecord 0 0)])]
    ∧ (getArbitragePairs ⟨-10, 5, false⟩ [("binance", [("BTCUSDT", sampleRecord 0 0)])]).1
        = [toSingleLeg "binance" "BTCUSDT" (sampleRecord 0 0)] := by
  refine ⟨?_, by norm_num [keptObservation, sampleRecord], by norm_num [sampleRecord],
      by norm_num [snapshotObservations], ?_⟩
  · norm_num [getArbitragePairs, snapshotObservations, keptObservation, sampleRecord,
      List.filter_cons, List.mergeSort, List.merge]
  · norm_num [getArbitragePairs, snapshotObservations, keptObservation, sampleRecord,
      toSingleLeg, List.filter_cons, List.mergeSort, List.merge]

/-- Witness for C7 with non-overlapping thresholds `+1` / `−1`: the
observation with `apr = 12` is classified positive, the positive aprs
`[12, 30, 5]` come out ordered `[30, 12, 5]` and the negative aprs
`[−40, −5, −15]` come out ordered `[−40, −15, −5]`. -/
theorem claim_C7_witness :
    keptObservation ⟨1, -1, false⟩ (sampleRecord 0 12) = true
    ∧ ("binance", "A", sampleRecord 0 12) ∈ snapshotObservations
        [("binance", [("A", sampleRecord 0 12), ("B", sampleRecord 0 30), ("C", sampleRecord 0 5),
                      ("D", sampleRecord 0 (-40)), ("E", sampleRecord 0 (-5)), ("F", sampleRecord 0 (-15))])]
    ∧ ((1 : ℚ) ≤ (sampleRecord 0 12).apr)
    ∧ toSingleLeg "binance" "A" (sampleRecord 0 12) ∈ (getArbitragePairs ⟨1, -1, false⟩
        [("binance", [("A", sampleRecord 0 12), ("B", sampleRecord 0 30), ("C", sampleRecord 0 5),
                      ("D", sampleRecord 0 (-40)), ("E", sampleRecord 0 (-5)), ("F", sampleRecord 0 (-15))])]).1
    ∧ (getArbitragePairs ⟨1, -1, false⟩
        [("binance", [("A", sampleRecord 0 12), ("B", sampleRecord 0 30), ("C", sampleRecord 0 5),
                      ("D", sampleRecord 0 (-40)), ("E", sampleRecord 0 (-5)), ("F", sampleRecord 0 (-15))])]).1.map
          (fun o => o.apr) = [30, 12, 5]
    ∧ (getArbitragePairs ⟨1, -1, false⟩
        [("binance", [("A", sampleRecord 0 12), ("B", sampleRecord 0 30), ("C", sampleRecord 0 5),
                      ("D", sampleRecord 0 (-40)), ("E", sampleRecord 0 (-5)), ("F", sampleRecord 0 (-15))])]).2.map
          (fun o => o.apr) = [-40, -15, -5] := by
  refine ⟨by norm_num [keptObservation, sampleRecord], by norm_num [snapshotObservations],
      by norm_num [sampleRecord], ?_, ?_, ?_⟩
  · exact ((claim_C7_single_leg_classification ⟨1, -1, false⟩ _).2.2 "binance" "A"
      (sampleRecord 0 12)
      (by norm_num [snapshotObservations]) (by norm_num [keptObservation, sampleRecord])).1
      (by norm_num [sampleRecord])
  · norm_num [getArbitragePairs, snapshotObservations, keptObservation, sampleRecord,
      toSingleLeg, List.filter_cons, List.mergeSort, List.merge]
  · norm_num [getArbitragePairs, snapshotObservations, keptObservation, sampleRecord,
      toSingleLeg, List.filter_cons, List.mergeSort, List.merge]

/-- Helper for C10: a key whose lookup succeeds satisfies the `any`
membership test used by `setKey`. -/
lemma any_of_getKey_isSome {α : Type} {l : List (String × α)} {k : String}
    (h : (getKey l k).isSome = true) : l.any (fun p => p.1 == k) = true := by
  induction l with
  | nil => simp [getKey] at h
  | cons p t ih =>
    rw [List.any_cons, Bool.or_eq_true]
    by_cases hpk : (p.1 == k) = true
    · exact Or.inl hpk
    · right
      apply ih
      have hne : ¬ (p.1 = k) := fun hh => hpk (by simp [hh])
      simpa [getKey, hne] using h

/-- Helper for C10: overwriting an existing key leaves the key list of an
object unchanged. -/
lemma map_fst_setKey_of_isSome {α : Type} {l : List (String × α)} {k : String} (v : α)
    (h : (getKey l k).isSome = true) :
    (setKey l k v).map Prod.fst = l.map Prod.fst := by
  rw [setKey, if_pos (any_of_getKey_isSome h), List.map_map]
  apply List.map_congr_left
  intro p _
  by_cases hpk : (p.1 == k) = true
  · simp only [Function.comp_apply, if_pos hpk]
    exact (eq_of_beq hpk).symm
  · simp only [Function.comp_apply, if_neg hpk]

/-- Helper for C10: appending a fresh key makes its lookup succeed. -/
lemma getKey_append_single {α : Type} {l : List (String × α)} {k : String} (v : α)
    (h : getKey l k = none) : getKey (l ++ [(k, v)]) k = some v := by
  induction l with
  | nil => simp [getKey]
  | cons p t ih =>
    simp only [getKey] at h ⊢
    by_cases hpk : (p.1 == k) = true
    · rw [if_pos hpk] at h; exact absurd h (by simp)
    · rw [if_neg hpk] at h ⊢
      exact ih h

/-- C10: `updateRate` stores an observation only under an exchange key that
already exists in the snapshot.  When `exchange` is one of the snapshot's
keys, `updateRate` succeeds and the snapshot's top-level key set is
unchanged; when it is not, the snapshot write fails (`TypeError` — there is
no symbol map to index into), the snapshot itself is untouched, and the
`previousTimestamps` ledger entry for that exchange has nevertheless been
auto-created before the failure. -/
theorem claim_C10_updateRate_write_safety (fee : ℚ) (s : CollectorState)
    (ex sym : String) (rate : ℚ) (next : Option ℤ) :
    (∀ m, getKey s.fundingRates ex = some m →
        ∃ s', updateRate fee s ex sym rate next = Except.ok s'
          ∧ s'.fundingRates.map Prod.fst = s.fundingRates.map Prod.fst)
    ∧ (getKey s.fundingRates ex = none →
        ∃ sErr, updateRate fee s ex sym rate next = Except.error sErr
          ∧ (getKey sErr.previousTimestamps ex).isSome = true
          ∧ sErr.fundingRates = s.fundingRates) := by
  constructor
  · intro m hm
    have hsome : (getKey s.fundingRates ex).isSome = true := by rw [hm]; rfl
    simp only [updateRate, hm]
    split <;> split <;> exact ⟨_, rfl, map_fst_setKey_of_isSome _ hsome⟩
  · intro hnone
    simp only [updateRate, hnone]
    refine ⟨_, rfl, ?_, rfl⟩
    by_cases hp : (getKey s.previousTimestamps ex).isSome = true
    · rw [if_pos hp]; exact hp
    · have hn : getKey s.previousTimestamps ex = none :=
        Option.not_isSome_iff_eq_none.mp (by simpa using hp)
      rw [if_neg hp, getKey_append_single ([] : List (String × Option ℤ)) hn]
      rfl

/-- The snapshot's key list after an `updateRate` call, `none` when the
call threw. -/
def snapshotKeysAfter (res : Except CollectorState CollectorState) : Option (List String) :=
  match res with
  | .ok s => some (s.fundingRates.map Prod.fst)
  | .error _ => none

/-- Whether a failed `updateRate` call left a ledger entry for the given
exchange. -/
def erredLedgerHasExchange (res : Except CollectorState CollectorState) (ex : String) : Bool :=
  match res with
  | .error e => (getKey e.previousTimestamps ex).isSome
  | .ok _ => false

/-- The record stored under `(exchange, symbol)` after a successful
`updateRate` call. -/
def storedRecord (res : Except CollectorState CollectorState) (ex sym : String) :
    Option FundingRate :=
  match res with
  | .ok s => (getKey s.fundingRates ex).bind (fun m => getKey m sym)
  | .error _ => none

/-- Witness for C10: on a collector configured with exactly `binance`,
updating `binance` succeeds with key set `["binance"]`, while updating the
unconfigured `kraken` throws yet auto-creates the `kraken` ledger entry. -/
theorem claim_C10_witness :
    getKey (⟨[("binance", [])], [], false⟩ : CollectorState).fundingRates "binance" = some []
    ∧ snapshotKeysAfter
        (updateRate (6/100) ⟨[("binance", [])], [], false⟩ "binance" "BTCUSDT" (1/10000) none)
        = some ["binance"]
    ∧ getKey (⟨[("binance", [])], [], false⟩ : CollectorState).fundingRates "kraken" = none
    ∧ erredLedgerHasExchange
        (updateRate (6/100) ⟨[("binance", [])], [], false⟩ "kraken" "BTCUSDT" (1/10000) none)
        "kraken" = true := by
  refine ⟨by rfl, ?_, by rfl, ?_⟩
  · obtain ⟨s', heq, hmap⟩ := (claim_C10_updateRate_write_safety (6/100)
      ⟨[("binance", [])], [], false⟩ "binance" "BTCUSDT" (1/10000) none).1 [] (by rfl)
    rw [heq]
    simp [snapshotKeysAfter, hmap]
  · obtain ⟨e, heq, hsome, _⟩ := (claim_C10_updateRate_write_safety (6/100)
      ⟨[("binance", [])], [], false⟩ "kraken" "BTCUSDT" (1/10000) none).2 (by rfl)
    rw [heq]
    simp [erredLedgerHasExchange, hsome]

/-- C4 (divergence exhibit): for an exchange outside the five built-in
names (here `hyperliquid`, configured in the snapshot) with no usable
timestamps, the `default:` branch of the frequency switch assigns nothing,
so the stored observation has `frequencyPerDay = null` — not an integer
≥ 1 as claimed — and the `apr` arithmetic silently coerces the `null` to
0. -/
theorem claim_C4_default_frequency_missing :
    (calculateRates (1/10000) (6/100) "hyperliquid" none none).frequencyPerDay = none
    ∧ (calculateRates (1/10000) (6/100) "hyperliquid" none none).apr = 0
    ∧ (storedRecord
        (updateRate (6/100) ⟨[("hyperliquid", [])], [], false⟩ "hyperliquid" "BTCUSDT"
          (1/10000) none)
        "hyperliquid" "BTCUSDT").map (fun r => r.frequencyPerDay) = some none := by
  have hdf : defaultFrequency "hyperliquid" = none := by decide
  refine ⟨by decide, ?_, ?_⟩
  · simp [calculateRates, inferFrequency, hdf, jsNumber]
  · have hne : ¬ ((none : Option (Option ℤ)) = some none) := by simp
    norm_num [storedRecord, updateRate, getKey, setKey, calculateRates, inferFrequency, hdf,
      jsNumber, hne]

end FundingMonitor
